import Mathlib

/-!
Verification development for the Satellite_Interpolation repository
(src/main.py): a shallow embedding of the tile-grid mosaic pipeline
(fetch_stitched_frames) and of the frame-interpolation orchestrator
(interpolate_and_generate_video), with theorems settling the frozen
claims about them.

Modelling conventions:
* Timestamps.  The code labels frames with four-digit HHMM strings and
  re-parses them with int(...).  We represent such a label by the natural
  number HH * 100 + MM (the value int gives on the zero-padded string),
  and absolute points in time by their total minute count.
* Images.  A PIL image is modelled as its pixel dimensions together with
  a total pixel function; the value 0 stands for the fully transparent
  pixel that Image.new (RGBA) initialises the canvas with.
* I/O.  Network responses, image decoding and the two external processes
  (RIFE, FFmpeg) are modelled by oracles passed as arguments; the session
  directory is modelled by the list of frame labels it contains.
-/

namespace SatInterp

/-! ### Configuration constants (src/main.py lines 22-27) -/

def TILE_SIZE_PX : Nat := 256

def TIME_INTERVAL_MINUTES : Nat := 30

def MAX_WORKERS : Nat := 8

def RETRIES : Nat := 2

/-! ### Time-label helpers (src/main.py lines 184-189)

timestamp_to_minutes parses an HHMM label (first two digits hours, last
two minutes); on the numeric representation of the four-digit label this
is division/remainder by 100.  minutes_to_timestamp formats a minute
count back to the HHMM label written with two zero-padded fields, whose
numeric value is the expression below. -/

def timestamp_to_minutes (ts : Nat) : Nat :=
  (ts / 100) * 60 + ts % 100

def minutes_to_timestamp (mins : Nat) : Nat :=
  (mins / 60) * 100 + mins % 60

/-- strftime with format HHMM on a datetime whose absolute minute count
is t: the label shows the minute of the current day. -/
def hhmm (t : Nat) : Nat :=
  minutes_to_timestamp (t % 1440)

/-! ### Re-timestamping of one interpolated pair (src/main.py lines 214-220)

For the frame pair starting at label t1 the code moves the interpolator
outputs 0.png .. 31.png into the interpolated-frames directory: output
index i is stored under the label of minute start_min + i.  We record
the list of (output index, new label) moves. -/

def retimestampPair (t1 : Nat) : List (Nat × Nat) :=
  (List.range 32).map fun i => (i, minutes_to_timestamp (timestamp_to_minutes t1 + i))

/-! ### The interpolated-frames directory as a list of labels

shutil.move overwrites an existing file of the same name, so moving a
name already present leaves the set of directory entries unchanged. -/

def moveInto (dir : List Nat) (name : Nat) : List Nat :=
  if name ∈ dir then dir else dir ++ [name]

/-- Directory contents after processing every consecutive frame pair
(src/main.py lines 194-223): pairs are (frames[i], frames[i+1]) over the
sorted frame list, and each pair contributes its 32 re-timestamped
outputs. -/
def interpolatedDirAfter (frames : List Nat) : List Nat :=
  (frames.zip frames.tail).foldl
    (fun dir p => (retimestampPair p.1).foldl (fun d e => moveInto d e.2) dir) []

/-! ### Renumbering (src/main.py lines 225-231)

The timestamped files are sorted by the numeric value of their stem and
copied to 0.png, 1.png, ...; we record the list of (new index, old
label) pairs. -/

def renumber (names : List Nat) : List (Nat × Nat) :=
  (names.insertionSort (· ≤ ·)).enum

/-! ### The video-generation endpoint (src/main.py lines 172-254) -/

/-- Outcome of invoking the external FFmpeg binary: missing binary
(FileNotFoundError), non-zero exit (CalledProcessError), or success. -/
inductive ToolResult where
  | ok
  | failed
  | notFound
deriving DecidableEq

/-- The error taxonomy of the video-generation endpoint.  The
constructor sessionNotFound is present so that the corresponding claim
can be stated; as the theorems show, the code never produces it. -/
inductive VideoError where
  | sessionNotFound
  | interpolationFailed
  | ffmpegNotFound
  | ffmpegFailed
deriving DecidableEq

/-- interpolate_and_generate_video (src/main.py lines 172-254).

The session argument is the directory listing for the requested session
id: none when no such directory exists.  The code performs no existence
check: os.makedirs(interpolated_dir, exist_ok=True) silently creates the
session directory, after which the absent session behaves exactly like
an empty one (hence getD []).  interpOk is the exit status of the
external interpolator (the code aborts with an HTTP 500 on the first
failing pair, so one flag suffices), ffmpeg the outcome of the encoder
invocation.  On success the result is the renumbering move list. -/
def interpolate_and_generate_video (session : Option (List Nat)) (interpOk : Bool)
    (ffmpeg : ToolResult) : Except VideoError (List (Nat × Nat)) :=
  let frames := (session.getD []).insertionSort (· ≤ ·)
  if 2 ≤ frames.length ∧ interpOk = false then
    .error .interpolationFailed
  else
    let dir := interpolatedDirAfter frames
    let out := renumber dir
    match ffmpeg with
    | .notFound => .error .ffmpegNotFound
    | .failed => .error .ffmpegFailed
    | .ok => .ok out

/-! ### Images (PIL model)

A raster is its pixel dimensions plus a total pixel function.  Pixel
value 0 is the fully transparent pixel with which Image.new (mode RGBA,
no fill colour) initialises a canvas. -/

structure Image where
  width : Nat
  height : Nat
  px : Nat → Nat → Nat

/-- Image.new of src/main.py line 159: a transparent canvas. -/
def Image.new (w h : Nat) : Image :=
  ⟨w, h, fun _ _ => 0⟩

/-- PIL Image.paste of a tile at offset (x0, y0): pixels inside the
pasted rectangle come from the tile, all others from the canvas; the
canvas dimensions are unchanged. -/
def Image.paste (canvas tile : Image) (x0 y0 : Nat) : Image :=
  { canvas with
    px := fun x y =>
      if x0 ≤ x ∧ x < x0 + tile.width ∧ y0 ≤ y ∧ y < y0 + tile.height then
        tile.px (x - x0) (y - y0)
      else
        canvas.px x y }

/-! ### Mosaic assembly (src/main.py lines 158-162)

A fetched tile is a triple (col, row, image); line 161 pastes it at
pixel offset (col * TILE_SIZE_PX, (rows - 1 - row) * TILE_SIZE_PX). -/

def pasteStep (rows : Nat) (canvas : Image) (t : Nat × Nat × Image) : Image :=
  canvas.paste t.2.2 (t.1 * TILE_SIZE_PX) ((rows - 1 - t.2.1) * TILE_SIZE_PX)

/-- The stitched image of one timestamp: paste every fetched tile, in
list order, onto a transparent cols*256 by rows*256 canvas. -/
def stitch (cols rows : Nat) (tileImages : List (Nat × Nat × Image)) : Image :=
  tileImages.foldl (pasteStep rows) (Image.new (cols * TILE_SIZE_PX) (rows * TILE_SIZE_PX))

/-- The pasted rectangle of tile t covers pixel (x, y).  This is the
guard of Image.paste at the offset used by pasteStep. -/
def coversPx (rows : Nat) (t : Nat × Nat × Image) (x y : Nat) : Prop :=
  t.1 * TILE_SIZE_PX ≤ x ∧ x < t.1 * TILE_SIZE_PX + t.2.2.width ∧
  (rows - 1 - t.2.1) * TILE_SIZE_PX ≤ y ∧
  y < (rows - 1 - t.2.1) * TILE_SIZE_PX + t.2.2.height

instance (rows : Nat) (t : Nat × Nat × Image) (x y : Nat) :
    Decidable (coversPx rows t x y) := by
  unfold coversPx
  infer_instance

/-- Lines 158-162: the frame file for a timestamp is written only when
at least one tile succeeded (the guard if tile_images at line 158);
otherwise no file is produced for that timestamp. -/
def savedFrame (cols rows : Nat) (tileImages : List (Nat × Nat × Image)) : Option Image :=
  if tileImages.isEmpty then none else some (stitch cols rows tileImages)

/-! ### Per-tile fetch with retries (src/main.py lines 74-97)

The network is an oracle from attempt index to the response body of a
successful (2xx) request, none standing for a network error or a non-2xx
status (raise_for_status).  fetchAux runs the retry loop from a given
attempt index with the given number of retries remaining and also
returns the number of attempts it made, instrumenting the loop so the
retry bound can be stated. -/

def fetchAux (oracle : Nat → Option Nat) (attempt : Nat) : Nat → Option Nat × Nat
  | 0 => (oracle attempt, 1)
  | n + 1 =>
    match oracle attempt with
    | some r => (some r, 1)
    | none =>
      let rest := fetchAux oracle (attempt + 1) n
      (rest.1, rest.2 + 1)

/-- fetch_with_retries (lines 74-84): the loop for attempt in
range(retries + 1), returning the first successful response, or None
after every attempt failed. -/
def fetch_with_retries (oracle : Nat → Option Nat) (retries : Nat) : Option Nat × Nat :=
  fetchAux oracle 0 retries

/-- download_tile (lines 86-97): on a successful fetch, decode the body
as an image (decode failure yields None exactly like a fetch failure);
on success pair the image with its grid cell.  The WMS url and bbox
query only parameterise the request and are absorbed into the
oracles. -/
def download_tile (col row : Nat) (fetchResult : Option Nat)
    (decode : Nat → Option Image) : Option (Nat × Nat × Image) :=
  match fetchResult with
  | none => none
  | some body =>
    match decode body with
    | none => none
    | some img => some (col, row, img)

/-- Lines 150-156: collect the per-tile results of a batch, dropping the
tiles whose download returned None (the guard if result at line 155).
as_completed makes the arrival order of the successes unconstrained; the
theorems about stitching are therefore proved for arbitrary orderings. -/
def batchResults (tasks : List (Nat × Nat))
    (outcome : Nat × Nat → Option (Nat × Nat × Image)) : List (Nat × Nat × Image) :=
  tasks.filterMap outcome

/-! ### The mosaic endpoint (src/main.py lines 99-170) -/

/-- The error taxonomy of fetch_stitched_frames: the three HTTP 400
rejections at lines 104-107 and 120-121, in the order the code checks
them. -/
inductive FetchError where
  | invalidMinutes
  | invalidRange
  | tooManyTiles
deriving DecidableEq

/-- The while loop of lines 128-164: the attempted timestamps from
current_time = start to end_m in steps of TIME_INTERVAL_MINUTES = 30
(absolute minutes). -/
def frameTimes (cur end_m : Nat) : List Nat :=
  if cur ≤ end_m then cur :: frameTimes (cur + 30) end_m else []
termination_by end_m + 1 - cur
decreasing_by omega

/-- fetch_stitched_frames (lines 99-170).  Timestamps are absolute
minute counts; validation (lines 104-107) requires both minutes of the
hour in {15, 45} and start not after end; the planned grid (cols, rows)
is the tile-grid planner output, taken as input here because the
projection and float snapping of lines 110-118 are external to the
claims; the cap check (lines 120-121) rejects cols * rows > 400.  The
tiles oracle gives, per attempted timestamp, the successful tile
downloads of that batch (in arrival order); each accepted timestamp
yields its HHMM label and the optional saved frame. -/
def fetch_stitched_frames (start_m end_m cols rows : Nat)
    (tiles : Nat → List (Nat × Nat × Image)) :
    Except FetchError (List (Nat × Option Image)) :=
  if ¬ (start_m % 60 = 15 ∨ start_m % 60 = 45) ∨
     ¬ (end_m % 60 = 15 ∨ end_m % 60 = 45) then
    .error .invalidMinutes
  else if end_m < start_m then
    .error .invalidRange
  else if 400 < cols * rows then
    .error .tooManyTiles
  else
    .ok ((frameTimes start_m end_m).map fun t => (hhmm t, savedFrame cols rows (tiles t)))

/-! ### Concrete instances used by the witness theorems -/

/-- A concrete test tile of the requested 256 by 256 pixel size. -/
def testTile : Image :=
  ⟨256, 256, fun x y => x + 1000 * y⟩

/-- The tile oracle of a batch in which every tile failed. -/
def noTiles : Nat → List (Nat × Nat × Image) :=
  fun _ => []

/-! ## Helper lemmas -/

/-- Formatting a minute count as an HHMM label and parsing it back is
the identity: the label determines the minute count. -/
lemma t2m_m2t (m : Nat) :
    timestamp_to_minutes (minutes_to_timestamp m) = m := by
  unfold timestamp_to_minutes minutes_to_timestamp
  omega

/-- A canonical HHMM label (minute field below 60) survives the parse
and re-format round trip. -/
lemma m2t_t2m (t1 : Nat) (h : t1 % 100 < 60) :
    minutes_to_timestamp (timestamp_to_minutes t1) = t1 := by
  unfold timestamp_to_minutes minutes_to_timestamp
  omega

/-! ## Claim C4 -/

/-- Claim C4: for every frame pair starting at label t1, the orchestrator
assigns interpolator output index k (k = 0..31) the new label obtained by
formatting the minute count of t1 plus k minutes, and the minute count of
that stored HHMM label is exactly the start minute plus k. -/
theorem C4_retimestamp (t1 k : Nat) (hk : k < 32) :
    (retimestampPair t1)[k]? = some (k, minutes_to_timestamp (timestamp_to_minutes t1 + k))
    ∧ timestamp_to_minutes (minutes_to_timestamp (timestamp_to_minutes t1 + k))
        = timestamp_to_minutes t1 + k := by
  constructor
  · unfold retimestampPair
    rw [List.getElem?_map, List.getElem?_range hk]
    rfl
  · exact t2m_m2t _

theorem C4_witness :
    (5 : Nat) < 32
    ∧ ((retimestampPair 900)[5]? = some (5, minutes_to_timestamp (timestamp_to_minutes 900 + 5))
       ∧ timestamp_to_minutes (minutes_to_timestamp (timestamp_to_minutes 900 + 5))
           = timestamp_to_minutes 900 + 5) :=
  ⟨by decide, C4_retimestamp 900 5 (by decide)⟩

/-! ## Claim C8 -/

/-- Claim C8: renumbering a set of distinct numeric labels yields the new
indices 0..N-1 in order, and the labels they are paired with are the input
labels in strictly ascending numeric order. -/
theorem C8_renumber (names : List Nat) (hnd : names.Nodup) :
    (renumber names).map Prod.fst = List.range names.length
    ∧ ((renumber names).map Prod.snd).Sorted (· < ·)
    ∧ List.Perm ((renumber names).map Prod.snd) names := by
  refine ⟨?_, ?_, ?_⟩
  · unfold renumber
    rw [List.enum_map_fst, List.length_insertionSort]
  · unfold renumber
    rw [List.enum_map_snd]
    exact (List.sorted_insertionSort (· ≤ ·) names).lt_of_le
      ((List.perm_insertionSort (· ≤ ·) names).nodup_iff.mpr hnd)
  · unfold renumber
    rw [List.enum_map_snd]
    exact List.perm_insertionSort _ names

theorem C8_witness :
    ([930, 900, 931] : List Nat).Nodup
    ∧ ((renumber [930, 900, 931]).map Prod.fst = List.range ([930, 900, 931] : List Nat).length
       ∧ ((renumber [930, 900, 931]).map Prod.snd).Sorted (· < ·)
       ∧ List.Perm ((renumber [930, 900, 931]).map Prod.snd) [930, 900, 931]) :=
  ⟨by decide, C8_renumber [930, 900, 931] (by decide)⟩

/-! ## Claim C1

The claim asserts that interpolated labels never collide with the pair
endpoints and lie strictly between them.  The code refutes this: output
index 0 is stored under the start label itself (start plus 0 minutes),
and for the 0900/0930 pair the 32 outputs are 0900..0931, containing
both endpoint labels. -/

/-- Claim C1, counterexample: for the 0900/0930 pair, 0900 itself is
among the re-timestamped output labels, and 0900 does not lie strictly
between the endpoints 0900 and 0930. -/
theorem C1_counterexample :
    900 ∈ (retimestampPair 900).map Prod.snd
    ∧ ¬ (900 < 900 ∧ 900 < 930) := by
  decide

/-- Claim C1, amended: for a pair starting at canonical label t1, the 32
output labels have minute counts start, start + 1, ..., start + 31 (so
they include the start endpoint label, and for a 30-minute pair the end
endpoint label and one minute beyond it); concretely, the outputs of the
0900 pair are exactly the labels 0900..0931 at one-minute cadence. -/
theorem C1_amended (t1 : Nat) (h : t1 % 100 < 60) :
    ((retimestampPair t1).map Prod.snd).map timestamp_to_minutes
      = (List.range 32).map (fun k => timestamp_to_minutes t1 + k)
    ∧ ((retimestampPair t1).map Prod.snd)[0]? = some t1
    ∧ (retimestampPair 900).map Prod.snd = (List.range 32).map (fun k => 900 + k) := by
  refine ⟨?_, ?_, by decide⟩
  · unfold retimestampPair
    simp only [List.map_map]
    refine List.map_congr_left fun k _ => ?_
    simp [Function.comp, t2m_m2t]
  · unfold retimestampPair
    rw [List.getElem?_map, List.getElem?_map, List.getElem?_range (by omega : (0 : Nat) < 32)]
    simp [m2t_t2m t1 h]

theorem C1_witness :
    (900 : Nat) % 100 < 60
    ∧ (((retimestampPair 900).map Prod.snd).map timestamp_to_minutes
         = (List.range 32).map (fun k => timestamp_to_minutes 900 + k)
       ∧ ((retimestampPair 900).map Prod.snd)[0]? = some 900
       ∧ (retimestampPair 900).map Prod.snd = (List.range 32).map (fun k => 900 + k)) :=
  ⟨by decide, C1_amended 900 (by decide)⟩

/-! ## Claim C2

The claim asserts that an unknown session id fails with SessionNotFound
before any work.  The code refutes this: the handler never checks that
the session directory exists; os.makedirs creates it, the frame list
comes out empty, no pair is interpolated, and the encoder is still
invoked (on an empty renumbered sequence), so the surfaced outcome is
whatever FFmpeg produces, never SessionNotFound. -/

/-- Claim C2, counterexample: with an absent session and an encoder that
exits non-zero, the endpoint reports the FFmpeg failure, not
SessionNotFound. -/
theorem C2_counterexample :
    interpolate_and_generate_video none true .failed = .error .ffmpegFailed
    ∧ interpolate_and_generate_video none true .failed ≠ .error .sessionNotFound := by
  constructor
  · rfl
  · intro hcontra
    simp [interpolate_and_generate_video, renumber, interpolatedDirAfter] at hcontra

/-- Claim C2, amended: the endpoint never produces SessionNotFound for
any session state, and on an absent session it performs no interpolation
(there is no frame pair) and still reaches the encoder invocation, whose
outcome alone determines the response. -/
theorem C2_amended (interpOk : Bool) (ff : ToolResult) :
    (∀ session, interpolate_and_generate_video session interpOk ff ≠ .error .sessionNotFound)
    ∧ interpolate_and_generate_video none interpOk ff
        = (match ff with
           | .notFound => .error .ffmpegNotFound
           | .failed => .error .ffmpegFailed
           | .ok => .ok []) := by
  constructor
  · intro session
    unfold interpolate_and_generate_video
    dsimp only
    split
    · simp
    · cases ff <;> simp
  · cases ff <;> rfl

/-! ## Stitching lemmas -/

/-- Pasting never changes the canvas dimensions, so neither does a whole
fold of pastes. -/
lemma foldl_pasteStep_width (rows : Nat) (tiles : List (Nat × Nat × Image)) :
    ∀ canvas, (tiles.foldl (pasteStep rows) canvas).width = canvas.width := by
  induction tiles with
  | nil => intro canvas; rfl
  | cons t ts ih =>
      intro canvas
      rw [List.foldl_cons, ih]
      rfl

lemma foldl_pasteStep_height (rows : Nat) (tiles : List (Nat × Nat × Image)) :
    ∀ canvas, (tiles.foldl (pasteStep rows) canvas).height = canvas.height := by
  induction tiles with
  | nil => intro canvas; rfl
  | cons t ts ih =>
      intro canvas
      rw [List.foldl_cons, ih]
      rfl

/-- A pixel covered by no pasted rectangle keeps its canvas value. -/
lemma foldl_pasteStep_px_of_not_covered (rows : Nat) (tiles : List (Nat × Nat × Image))
    (x y : Nat) :
    ∀ canvas, (∀ t ∈ tiles, ¬ coversPx rows t x y) →
      (tiles.foldl (pasteStep rows) canvas).px x y = canvas.px x y := by
  induction tiles with
  | nil => intro canvas _; rfl
  | cons t ts ih =>
      intro canvas h
      have hnc : ¬ coversPx rows t x y := h t (List.mem_cons_self t ts)
      unfold coversPx at hnc
      rw [List.foldl_cons, ih _ fun u hu => h u (List.mem_cons_of_mem t hu)]
      unfold pasteStep Image.paste
      dsimp only
      rw [if_neg hnc]

/-- Two tiles at different grid cells, with dimensions at most one tile
size, row indices below rows, paste onto disjoint pixel rectangles. -/
lemma pos_ne_cases {a b c d : Nat} (h : (a, b) ≠ (c, d)) : a ≠ c ∨ b ≠ d := by
  by_contra hcon
  push_neg at hcon
  rw [hcon.1, hcon.2] at h
  exact h rfl

/-- The pixel at offset (dx, dy) inside the cell rectangle of (c, r) is
not covered by a tile of another cell. -/
lemma not_coversPx_of_ne (rows : Nat) (u : Nat × Nat × Image) (c r dx dy : Nat)
    (hw : u.2.2.width ≤ TILE_SIZE_PX) (hh : u.2.2.height ≤ TILE_SIZE_PX)
    (hur : u.2.1 < rows) (hr : r < rows)
    (hne : (u.1, u.2.1) ≠ (c, r)) (hdx : dx < TILE_SIZE_PX) (hdy : dy < TILE_SIZE_PX) :
    ¬ coversPx rows u (c * TILE_SIZE_PX + dx) ((rows - 1 - r) * TILE_SIZE_PX + dy) := by
  have hcase := pos_ne_cases hne
  unfold coversPx TILE_SIZE_PX at *
  omega

/-- The placement theorem behind claim C7: with distinct grid cells, row
indices below rows and tiles no larger than a tile cell, the stitched
pixel at offset (dx, dy) inside the rectangle of cell (c, r) is the
pixel (dx, dy) of the tile fetched for (c, r), whatever canvas the fold
started from. -/
lemma foldl_pasteStep_px_of_mem (rows : Nat) :
    ∀ (tiles : List (Nat × Nat × Image)) (canvas : Image) (c r : Nat) (img : Image)
      (dx dy : Nat),
      (∀ t ∈ tiles, t.2.2.width ≤ TILE_SIZE_PX ∧ t.2.2.height ≤ TILE_SIZE_PX) →
      (∀ t ∈ tiles, t.2.1 < rows) →
      (tiles.map fun t => (t.1, t.2.1)).Nodup →
      (c, r, img) ∈ tiles → r < rows → dx < img.width → dy < img.height →
      (tiles.foldl (pasteStep rows) canvas).px
          (c * TILE_SIZE_PX + dx) ((rows - 1 - r) * TILE_SIZE_PX + dy) = img.px dx dy := by
  intro tiles
  induction tiles with
  | nil => intro canvas c r img dx dy _ _ _ hmem _ _ _; cases hmem
  | cons t ts ih =>
      intro canvas c r img dx dy hdims hrows hnd hmem hr hdx hdy
      have hndt := (List.nodup_cons.mp hnd).1
      have hnds := (List.nodup_cons.mp hnd).2
      rw [List.foldl_cons]
      rcases List.mem_cons.mp hmem with heq | hmem'
      · subst heq
        have hcover : ∀ u ∈ ts,
            ¬ coversPx rows u (c * TILE_SIZE_PX + dx) ((rows - 1 - r) * TILE_SIZE_PX + dy) := by
          intro u hu
          have hw := (hdims u (List.mem_cons_of_mem _ hu)).1
          have hh := (hdims u (List.mem_cons_of_mem _ hu)).2
          have hur := hrows u (List.mem_cons_of_mem _ hu)
          have hne : (u.1, u.2.1) ≠ (c, r) := by
            intro hposeq
            have hm := List.mem_map_of_mem (fun t => (t.1, t.2.1)) hu
            change (u.1, u.2.1) ∈ _ at hm
            rw [hposeq] at hm
            exact hndt hm
          have hdx2 : dx < TILE_SIZE_PX :=
            lt_of_lt_of_le hdx (hdims _ (List.mem_cons_self _ _)).1
          have hdy2 : dy < TILE_SIZE_PX :=
            lt_of_lt_of_le hdy (hdims _ (List.mem_cons_self _ _)).2
          exact not_coversPx_of_ne rows u c r dx dy hw hh hur hr hne hdx2 hdy2
        rw [foldl_pasteStep_px_of_not_covered rows ts _ _ _ hcover]
        unfold pasteStep Image.paste
        dsimp only
        rw [if_pos ⟨Nat.le_add_right _ _, by omega, Nat.le_add_right _ _, by omega⟩]
        rw [Nat.add_sub_cancel_left, Nat.add_sub_cancel_left]
      · exact ih _ c r img dx dy (fun u hu => hdims u (List.mem_cons_of_mem _ hu))
          (fun u hu => hrows u (List.mem_cons_of_mem _ hu)) hnds hmem' hr hdx hdy

/-! ## Claim C7 -/

/-- Claim C7: a successfully fetched tile at grid cell (col, row) lands at
pixel offset (col * tilePixels, (rows - 1 - row) * tilePixels) — the
vertical flip — and the pixels it contributes there are independent of
the order in which the tiles of the batch completed (any permutation of
the fetched list places it identically). -/
theorem C7_placement (cols rows : Nat) (tiles : List (Nat × Nat × Image))
    (hdims : ∀ t ∈ tiles, t.2.2.width ≤ TILE_SIZE_PX ∧ t.2.2.height ≤ TILE_SIZE_PX)
    (hrows : ∀ t ∈ tiles, t.2.1 < rows)
    (hnd : (tiles.map fun t => (t.1, t.2.1)).Nodup)
    (c r : Nat) (img : Image) (hmem : (c, r, img) ∈ tiles)
    (dx dy : Nat) (hdx : dx < img.width) (hdy : dy < img.height) :
    (stitch cols rows tiles).px
        (c * TILE_SIZE_PX + dx) ((rows - 1 - r) * TILE_SIZE_PX + dy) = img.px dx dy
    ∧ ∀ arrival, List.Perm tiles arrival →
        (stitch cols rows arrival).px
            (c * TILE_SIZE_PX + dx) ((rows - 1 - r) * TILE_SIZE_PX + dy) = img.px dx dy := by
  have hr : r < rows := hrows _ hmem
  constructor
  · exact foldl_pasteStep_px_of_mem rows tiles _ c r img dx dy hdims hrows hnd hmem hr hdx hdy
  · intro arrival hperm
    exact foldl_pasteStep_px_of_mem rows arrival _ c r img dx dy
      (fun u hu => hdims u (hperm.mem_iff.mpr hu))
      (fun u hu => hrows u (hperm.mem_iff.mpr hu))
      (((hperm.map fun t => (t.1, t.2.1)).nodup_iff).mp hnd)
      (hperm.mem_iff.mp hmem) hr hdx hdy

theorem C7_witness :
    (stitch 2 2 [(0, 1, testTile), (1, 0, testTile)]).px
        (0 * TILE_SIZE_PX + 3) ((2 - 1 - 1) * TILE_SIZE_PX + 5) = testTile.px 3 5
    ∧ ∀ arrival, List.Perm [(0, 1, testTile), (1, 0, testTile)] arrival →
        (stitch 2 2 arrival).px
            (0 * TILE_SIZE_PX + 3) ((2 - 1 - 1) * TILE_SIZE_PX + 5) = testTile.px 3 5 :=
  C7_placement 2 2 [(0, 1, testTile), (1, 0, testTile)]
    (by
      intro t ht
      rcases List.mem_cons.mp ht with h | h
      · subst h; exact ⟨Nat.le_refl _, Nat.le_refl _⟩
      · rw [List.mem_singleton] at h; subst h; exact ⟨Nat.le_refl _, Nat.le_refl _⟩)
    (by
      intro t ht
      rcases List.mem_cons.mp ht with h | h
      · subst h; exact Nat.one_lt_two
      · rw [List.mem_singleton] at h; subst h; exact Nat.zero_lt_two)
    (by simp)
    0 1 testTile (List.mem_cons_self _ _) 3 5 (by decide) (by decide)

/-! ## Claim C3

The claim asserts the assembled frame always has dimensions
(cols * tilePixels, rows * tilePixels) even when zero tiles succeeded.
The code refutes the zero-success case: the guard if tile_images at
line 158 skips assembly entirely, so no frame is produced at all for
that timestamp. -/

/-- Claim C3, counterexample: with every tile of the batch failed, no
mosaic frame is assembled or saved (so there is no frame whose
dimensions could be measured): the request over a single timestamp
returns an entry with no image. -/
theorem C3_counterexample :
    savedFrame 2 3 [] = none
    ∧ (fetch_stitched_frames 15 15 2 3 fun _ => []).map (List.map Prod.snd)
        = .ok [none] := by
  constructor
  · rfl
  · simp [fetch_stitched_frames, frameTimes, savedFrame, Except.map, hhmm, minutes_to_timestamp]

/-- Claim C3, amended: whenever at least one tile of the batch
succeeded, the assembled frame is saved and has pixel dimensions exactly
(cols * tilePixels, rows * tilePixels) regardless of which tiles
succeeded, and every pixel covered by no fetched tile remains the
transparent value of the fresh canvas. -/
theorem C3_amended (cols rows : Nat) (tiles : List (Nat × Nat × Image)) (hne : tiles ≠ []) :
    savedFrame cols rows tiles = some (stitch cols rows tiles)
    ∧ (stitch cols rows tiles).width = cols * TILE_SIZE_PX
    ∧ (stitch cols rows tiles).height = rows * TILE_SIZE_PX
    ∧ ∀ x y, (∀ t ∈ tiles, ¬ coversPx rows t x y) → (stitch cols rows tiles).px x y = 0 := by
  refine ⟨?_, ?_, ?_, ?_⟩
  · have hbool : tiles.isEmpty = false := by
      cases tiles with
      | nil => exact absurd rfl hne
      | cons t ts => rfl
    simp [savedFrame, hbool]
  · exact foldl_pasteStep_width rows tiles _
  · exact foldl_pasteStep_height rows tiles _
  · intro x y h
    unfold stitch
    rw [foldl_pasteStep_px_of_not_covered rows tiles x y _ h]
    rfl

theorem C3_witness :
    ([(0, 0, testTile)] : List (Nat × Nat × Image)) ≠ []
    ∧ (savedFrame 2 3 [(0, 0, testTile)] = some (stitch 2 3 [(0, 0, testTile)])
       ∧ (stitch 2 3 [(0, 0, testTile)]).width = 2 * TILE_SIZE_PX
       ∧ (stitch 2 3 [(0, 0, testTile)]).height = 3 * TILE_SIZE_PX
       ∧ ∀ x y, (∀ t ∈ ([(0, 0, testTile)] : List (Nat × Nat × Image)),
            ¬ coversPx 3 t x y) → (stitch 2 3 [(0, 0, testTile)]).px x y = 0) :=
  ⟨by simp, C3_amended 2 3 [(0, 0, testTile)] (by simp)⟩

/-! ## Retry-loop lemmas -/

/-- The retry loop makes at most one attempt more than the remaining
retry budget. -/
lemma fetchAux_attempts_le (oracle : Nat → Option Nat) :
    ∀ remaining attempt, (fetchAux oracle attempt remaining).2 ≤ remaining + 1 := by
  intro remaining
  induction remaining with
  | zero =>
      intro attempt
      simp [fetchAux]
  | succ n ih =>
      intro attempt
      cases h : oracle attempt with
      | some r => simp [fetchAux, h]
      | none =>
          have := ih (attempt + 1)
          simp only [fetchAux, h]
          omega

/-- When every attempt in the budget fails, the loop returns no response
after exactly remaining + 1 attempts. -/
lemma fetchAux_all_fail (oracle : Nat → Option Nat) :
    ∀ remaining attempt, (∀ j, j ≤ remaining → oracle (attempt + j) = none) →
      fetchAux oracle attempt remaining = (none, remaining + 1) := by
  intro remaining
  induction remaining with
  | zero =>
      intro attempt h
      have h0 : oracle attempt = none := by
        have := h 0 (Nat.le_refl 0)
        simpa using this
      simp [fetchAux, h0]
  | succ n ih =>
      intro attempt h
      have h0 : oracle attempt = none := by
        have := h 0 (Nat.zero_le _)
        simpa using this
      have hrest : fetchAux oracle (attempt + 1) n = (none, n + 1) := by
        refine ih (attempt + 1) fun j hj => ?_
        have := h (j + 1) (by omega)
        have harg : attempt + 1 + j = attempt + (j + 1) := by omega
        rwa [harg]
      simp [fetchAux, h0, hrest]

/-! ## Claim C9 -/

/-- Claim C9: the per-tile fetch makes at most RETRIES + 1 attempts for
any network behaviour; when every attempt in the budget fails it makes
exactly RETRIES + 1 attempts and yields no response, so the tile
download (network error, non-2xx, or decode failure alike) yields no
image; a failed tile contributes nothing to the batch results while
every successful tile of the batch is still collected and assembled. -/
theorem C9_retry (oracle : Nat → Option Nat) (decode : Nat → Option Image)
    (col row : Nat) (tasks : List (Nat × Nat))
    (outcome : Nat × Nat → Option (Nat × Nat × Image))
    (hfail : ∀ k, k ≤ RETRIES → oracle k = none) :
    (∀ oracle2 : Nat → Option Nat, (fetch_with_retries oracle2 RETRIES).2 ≤ RETRIES + 1)
    ∧ fetch_with_retries oracle RETRIES = (none, RETRIES + 1)
    ∧ download_tile col row (fetch_with_retries oracle RETRIES).1 decode = none
    ∧ (∀ task, outcome task = none →
        batchResults (task :: tasks) outcome = batchResults tasks outcome)
    ∧ (∀ task img, task ∈ tasks → outcome task = some img →
        img ∈ batchResults tasks outcome) := by
  have hall : fetch_with_retries oracle RETRIES = (none, RETRIES + 1) := by
    refine fetchAux_all_fail oracle RETRIES 0 fun j hj => ?_
    simpa using hfail j hj
  refine ⟨?_, hall, ?_, ?_, ?_⟩
  · intro oracle2
    exact fetchAux_attempts_le oracle2 RETRIES 0
  · rw [hall]
    rfl
  · intro task htask
    unfold batchResults
    rw [List.filterMap_cons_none htask]
  · intro task img hmem hout
    unfold batchResults
    exact List.mem_filterMap.mpr ⟨task, hmem, hout⟩

theorem C9_witness :
    fetch_with_retries (fun _ => none) RETRIES = (none, RETRIES + 1)
    ∧ download_tile 0 0 (fetch_with_retries (fun _ => none) RETRIES).1 (fun _ => none)
        = none := by
  have h := C9_retry (fun _ => none) (fun _ => none) 0 0 [] (fun _ => none) fun k _ => rfl
  exact ⟨h.2.1, h.2.2.1⟩

/-! ## The while loop of the mosaic endpoint -/

/-- The attempted timestamps are exactly start, start + 30, start + 60,
..., up to and including the largest such time not after the end. -/
lemma mem_frameTimes (cur end_m t : Nat) :
    t ∈ frameTimes cur end_m ↔ ∃ k, t = cur + 30 * k ∧ t ≤ end_m := by
  rw [frameTimes]
  split
  · next h =>
      rw [List.mem_cons, mem_frameTimes (cur + 30) end_m t]
      constructor
      · rintro (rfl | ⟨k, rfl, hk⟩)
        · exact ⟨0, by omega, h⟩
        · exact ⟨k + 1, by omega, hk⟩
      · rintro ⟨k, rfl, hk⟩
        cases k with
        | zero => left; omega
        | succ n => right; exact ⟨n, by omega, hk⟩
  · next h =>
      simp only [List.not_mem_nil, false_iff]
      rintro ⟨k, rfl, hk⟩
      omega
termination_by end_m + 1 - cur
decreasing_by omega

/-- Formatting minute counts as HHMM labels is strictly monotone. -/
lemma m2t_strictMono {a b : Nat} (h : a < b) :
    minutes_to_timestamp a < minutes_to_timestamp b := by
  unfold minutes_to_timestamp
  omega

/-- Within one calendar day, later times get larger HHMM labels. -/
lemma hhmm_lt {a b : Nat} (hab : a < b) (hday : a / 1440 = b / 1440) :
    hhmm a < hhmm b := by
  unfold hhmm
  apply m2t_strictMono
  omega

/-- For a range inside a single calendar day the HHMM labels of the
attempted timestamps are strictly increasing in generation order. -/
lemma frameTimes_hhmm_chain (cur end_m : Nat) (hday : cur / 1440 = end_m / 1440) :
    ((frameTimes cur end_m).map hhmm).Chain' (· < ·) := by
  rw [frameTimes]
  split
  · next h =>
      rw [List.map_cons, List.chain'_cons']
      constructor
      · intro b hb
        rw [List.head?_map] at hb
        rcases Option.map_eq_some'.mp hb with ⟨a, ha, rfl⟩
        have hmema : a ∈ frameTimes (cur + 30) end_m := List.mem_of_mem_head? ha
        rcases (mem_frameTimes (cur + 30) end_m a).mp hmema with ⟨k, rfl, hk⟩
        exact hhmm_lt (by omega) (by omega)
      · by_cases h30 : cur + 30 ≤ end_m
        · exact frameTimes_hhmm_chain (cur + 30) end_m (by omega)
        · rw [frameTimes, if_neg h30]
          simp
  · next h =>
      simp
termination_by end_m + 1 - cur
decreasing_by omega

/-! ## Claim C5 -/

/-- Claim C5: an otherwise valid mosaic request whose planned grid has
cols * rows strictly above 400 is rejected with TooManyTiles, and the
response is the same whatever the tile fetches would have returned (no
fetch is consulted); with cols * rows at most 400 the request is not
rejected for this reason. -/
theorem C5_cap (start_m end_m cols rows : Nat)
    (tiles tiles2 : Nat → List (Nat × Nat × Image))
    (hs : start_m % 60 = 15 ∨ start_m % 60 = 45)
    (he : end_m % 60 = 15 ∨ end_m % 60 = 45)
    (hr : start_m ≤ end_m) :
    (400 < cols * rows →
       fetch_stitched_frames start_m end_m cols rows tiles = .error .tooManyTiles
       ∧ fetch_stitched_frames start_m end_m cols rows tiles
           = fetch_stitched_frames start_m end_m cols rows tiles2)
    ∧ (cols * rows ≤ 400 →
       fetch_stitched_frames start_m end_m cols rows tiles ≠ .error .tooManyTiles) := by
  have h1 : ¬ (¬ (start_m % 60 = 15 ∨ start_m % 60 = 45)
      ∨ ¬ (end_m % 60 = 15 ∨ end_m % 60 = 45)) := by
    push_neg
    exact ⟨hs, he⟩
  have h2 : ¬ (end_m < start_m) := by omega
  constructor
  · intro hcap
    simp only [fetch_stitched_frames, if_neg h1, if_neg h2, if_pos hcap]
    exact ⟨trivial, trivial⟩
  · intro hcap
    have h3 : ¬ (400 < cols * rows) := by omega
    simp only [fetch_stitched_frames, if_neg h1, if_neg h2, if_neg h3]
    simp

theorem C5_witness :
    ((400 < 401 * 1 →
       fetch_stitched_frames 15 45 401 1 (fun _ => []) = .error .tooManyTiles
       ∧ fetch_stitched_frames 15 45 401 1 (fun _ => [])
           = fetch_stitched_frames 15 45 401 1 (fun _ => [(0, 0, testTile)]))
    ∧ (401 * 1 ≤ 400 →
       fetch_stitched_frames 15 45 401 1 (fun _ => []) ≠ .error .tooManyTiles)) :=
  C5_cap 15 45 401 1 (fun _ => []) (fun _ => [(0, 0, testTile)])
    (Or.inl rfl) (Or.inr rfl) (by omega)

/-! ## Claim C6

The claim asserts strictly increasing HHMM labels for every accepted
range.  The code refutes it for an accepted range crossing midnight
(both boundary minutes on :15/:45, start before end, e.g. 23:45 one day
to 00:15 the next): strftime labels wrap around, so the second label is
numerically smaller. -/

/-- Claim C6, counterexample: the accepted request from absolute minute
1425 (23:45) to 1455 (00:15 next day) produces the label sequence
2345, 0015, which is not strictly increasing. -/
theorem C6_counterexample :
    (fetch_stitched_frames 1425 1455 1 1 fun _ => []).map (List.map Prod.fst)
      = .ok [2345, 15]
    ∧ ¬ ([2345, 15] : List Nat).Chain' (· < ·) := by
  constructor
  · simp [fetch_stitched_frames, frameTimes, Except.map, hhmm, minutes_to_timestamp,
      savedFrame]
  · intro hcon
    rw [List.chain'_cons] at hcon
    exact absurd hcon.1 (by omega)

/-- Claim C6, amended: for every accepted request whose range lies
within a single calendar day, the HHMM labels of the produced frames are
strictly increasing in generation order. -/
theorem C6_amended (start_m end_m cols rows : Nat)
    (tiles : Nat → List (Nat × Nat × Image))
    (hs : start_m % 60 = 15 ∨ start_m % 60 = 45)
    (he : end_m % 60 = 15 ∨ end_m % 60 = 45)
    (hr : start_m ≤ end_m) (hcap : cols * rows ≤ 400)
    (hday : start_m / 1440 = end_m / 1440) :
    (fetch_stitched_frames start_m end_m cols rows tiles).map (List.map Prod.fst)
      = .ok ((frameTimes start_m end_m).map hhmm)
    ∧ ((frameTimes start_m end_m).map hhmm).Chain' (· < ·) := by
  have h1 : ¬ (¬ (start_m % 60 = 15 ∨ start_m % 60 = 45)
      ∨ ¬ (end_m % 60 = 15 ∨ end_m % 60 = 45)) := by
    push_neg
    exact ⟨hs, he⟩
  have h2 : ¬ (end_m < start_m) := by omega
  have h3 : ¬ (400 < cols * rows) := by omega
  constructor
  · simp only [fetch_stitched_frames, if_neg h1, if_neg h2, if_neg h3]
    simp [Except.map, List.map_map]
  · exact frameTimes_hhmm_chain start_m end_m hday

theorem C6_witness :
    ((fetch_stitched_frames 15 45 1 1 fun _ => []).map (List.map Prod.fst)
      = .ok ((frameTimes 15 45).map hhmm)
    ∧ ((frameTimes 15 45).map hhmm).Chain' (· < ·)) :=
  C6_amended 15 45 1 1 (fun _ => []) (Or.inl rfl) (Or.inr rfl) (by omega) (by omega)
    (by omega)

/-! ## Claim C10 -/

/-- Claim C10: an accepted request attempts exactly the timestamps
start, start + 30, ..., up to and including the largest one not after
the end; a request with start equal to the end is accepted and attempts
exactly that one timestamp; and a timestamp whose batch produced no
successful tile yields no frame file. -/
theorem C10_schedule (start_m end_m cols rows : Nat)
    (tiles : Nat → List (Nat × Nat × Image))
    (hs : start_m % 60 = 15 ∨ start_m % 60 = 45)
    (he : end_m % 60 = 15 ∨ end_m % 60 = 45)
    (hr : start_m ≤ end_m) (hcap : cols * rows ≤ 400) :
    fetch_stitched_frames start_m end_m cols rows tiles
      = .ok ((frameTimes start_m end_m).map fun t => (hhmm t, savedFrame cols rows (tiles t)))
    ∧ (∀ t, t ∈ frameTimes start_m end_m ↔ ∃ k, t = start_m + 30 * k ∧ t ≤ end_m)
    ∧ frameTimes start_m start_m = [start_m]
    ∧ (∀ t, tiles t = [] → savedFrame cols rows (tiles t) = none) := by
  have h1 : ¬ (¬ (start_m % 60 = 15 ∨ start_m % 60 = 45)
      ∨ ¬ (end_m % 60 = 15 ∨ end_m % 60 = 45)) := by
    push_neg
    exact ⟨hs, he⟩
  have h2 : ¬ (end_m < start_m) := by omega
  have h3 : ¬ (400 < cols * rows) := by omega
  refine ⟨?_, fun t => mem_frameTimes start_m end_m t, ?_, ?_⟩
  · simp only [fetch_stitched_frames, if_neg h1, if_neg h2, if_neg h3]
  · rw [frameTimes, if_pos (Nat.le_refl _), frameTimes, if_neg (by omega)]
  · intro t ht
    rw [ht]
    rfl

theorem C10_witness :
    (fetch_stitched_frames 15 15 1 1 noTiles
      = .ok ((frameTimes 15 15).map fun t => (hhmm t, savedFrame 1 1 (noTiles t)))
    ∧ (∀ t, t ∈ frameTimes 15 15 ↔ ∃ k, t = 15 + 30 * k ∧ t ≤ 15)
    ∧ frameTimes 15 15 = [15]
    ∧ (∀ t, noTiles t = [] → savedFrame 1 1 (noTiles t) = none)) :=
  C10_schedule 15 15 1 1 noTiles (Or.inl rfl) (Or.inl rfl) (Nat.le_refl 15)
    (by omega)

end SatInterp
